import Mathlib

/-!
Verification of the viewport/navigation core of the `riew` image viewer
(`src/app.rs`, `src/macros.rs`).

Floating-point state (`f32` pan positions and zoom factors) is embedded as
exact rationals (`ℚ`): the algorithms are plain field arithmetic and
comparisons, which `ℚ` models exactly; rounding of `f32` itself is not
modelled.  Machine integers (`usize`, `i32`, `u32`) are embedded as `ℕ`/`ℤ`
(no operation here comes close to overflow).  The SDL rendering backend is
an external collaborator: image decoding is a parameter
`load : String → Option (ℕ × ℕ)` returning the decoded size on success, and
the display size is part of the state.
-/

namespace Riew

/-- Modelled from the spec: the source uses a `clamp!` macro whose definition
is not among the provided files; per the spec it clamps a value into
`[lo, hi]` ("clamp `position` into `[visible/2, image_size - visible/2]`",
"clamps `target` into `[0.001, 1000]`"). -/
def clamp (v lo hi : ℚ) : ℚ :=
  if v < lo then lo else if v > hi then hi else v

/-- `std::f32::MAX`, as an exact rational: `2^128 - 2^104`. -/
def f32MAX : ℚ := 340282346638528859811704183484516925440

/-- `f32::round`: round to the nearest integer, ties away from zero. -/
def f32round (x : ℚ) : ℤ := if 0 ≤ x then round x else -round (-x)

/-- `CurrentImage` (app.rs 27-39): the image currently displayed.  The
`Image` handle is represented by its pixel size; `pixel_info`'s `Color` is an
RGBA quadruple. -/
structure CurrentImage where
  width : ℕ
  height : ℕ
  /-- Pixel displayed at the center of the screen. -/
  pos : ℚ × ℚ
  /-- Rotation angle, in degrees. -/
  angle : ℤ
  /-- Last drag position, `none` if drag is not active. -/
  drag : Option (ℤ × ℤ)
  /-- Displayed pixel information. -/
  pixel_info : Option ((ℤ × ℤ) × (ℕ × ℕ × ℕ × ℕ))
  deriving DecidableEq

/-- `App` (app.rs 13-25).  `outSize` stands for `display.size()`. -/
structure App where
  outSize : ℕ × ℕ
  files : List String
  file_index : Option ℕ
  image : Option CurrentImage
  zoom : ℚ
  dirty : Bool
  deriving DecidableEq

/-- The `(lo..hi).step_by(s)` Rust range adapter, as a list. -/
def stepBy (lo hi s : ℕ) : List ℕ :=
  List.range' lo ((hi - lo + s - 1) / s) s

/-- `ZOOM_STEPS` (app.rs 41-52): zoom steps used when zooming in/out. -/
def ZOOM_STEPS : List ℚ :=
  (stepBy 0 0 1 ++ stepBy 15 50 7 ++ stepBy 50 100 10 ++ stepBy 100 200 25 ++
   stepBy 200 600 100 ++ stepBy 600 1000 200 ++ stepBy 1000 2000 500 ++
   stepBy 2000 5000 1000).map (fun v => (v : ℚ) / 100)

/-- `App::change_file` (app.rs 158-192).  Wraps the index around the file
list length, no-ops when the resolved index is unchanged, otherwise reloads;
on decode failure the image becomes `none` but the index is kept.  When the
resolved index is `none` the `try_some!` in the image block returns early:
`image` and `dirty` are left untouched. -/
def change_file (load : String → Option (ℕ × ℕ)) (a : App) (index : Option ℕ) : App :=
  let new_index : Option ℕ :=
    if a.files.length = 0 then none else index.map (fun i => i % a.files.length)
  if new_index = a.file_index then a
  else
    match new_index with
    | none => { a with file_index := none }
    | some i =>
      match load (a.files.getD i "") with
      | some (sx, sy) =>
        { a with file_index := some i,
                 image := some { width := sx, height := sy,
                                 pos := ((sx : ℚ) / 2, (sy : ℚ) / 2),
                                 angle := 0, drag := none, pixel_info := none },
                 dirty := true }
      | none => { a with file_index := some i, image := none, dirty := true }

/-- `App::change_file_rel` (app.rs 195-206).  `offset % nfiles` is Rust's
truncated remainder, `Int.tmod`. -/
def change_file_rel (load : String → Option (ℕ × ℕ)) (a : App) (offset : ℤ) : App :=
  let nfiles : ℤ := a.files.length
  let index : Option ℕ :=
    if nfiles = 0 then none
    else some (a.file_index.getD 0 + (Int.tmod offset nfiles + nfiles).toNat)
  change_file load a index

/-- One axis of `App::clamp_pos` (app.rs 255-266): center if the image fits
in the visible image-space extent `dst`, otherwise clamp into
`[dst/2, img - dst/2]`. -/
def axis_val (p img dst : ℚ) : ℚ :=
  if img ≤ dst then img / 2 else clamp p (dst / 2) (img - dst / 2)

/-- `App::clamp_pos` (app.rs 249-270), applying `axis_val` per axis with
`dst = output_size / zoom`. -/
def clamp_pos (a : App) : App :=
  match a.image with
  | none => a
  | some img =>
    let px := axis_val img.pos.1 (img.width : ℚ) ((a.outSize.1 : ℚ) / a.zoom)
    let py := axis_val img.pos.2 (img.height : ℚ) ((a.outSize.2 : ℚ) / a.zoom)
    { a with image := some { img with pos := (px, py) }, dirty := true }

/-- `App::move_to` (app.rs 209-214). -/
def move_to (a : App) (pos : ℚ × ℚ) : App :=
  match a.image with
  | none => a
  | some img =>
    let a' := clamp_pos { a with image := some { img with pos := pos } }
    { a' with dirty := true }

/-- `App::move_rel` (app.rs 217-225). -/
def move_rel (a : App) (offset : ℚ × ℚ) : App :=
  match a.image with
  | none => a
  | some img => move_to a (img.pos.1 + offset.1, img.pos.2 + offset.2)

/-- `App::scroll` (app.rs 228-246). -/
def scroll (load : String → Option (ℕ × ℕ)) (a : App) (step : ℚ) : App :=
  match a.image with
  | none => a
  | some img =>
    let dy := step * (a.outSize.2 : ℚ) / a.zoom
    if dy ≥ 0 ∧ img.pos.2 + dy / 2 + 3 / 2 > (img.height : ℚ) then
      move_to (change_file_rel load a 1) (0, 0)
    else if dy < 0 ∧ img.pos.2 + dy / 2 - 3 / 2 < 0 then
      move_to (change_file_rel load a (-1)) (0, f32MAX)
    else
      move_rel a (0, dy)

/-- `App::zoom_adjust` (app.rs 273-280). -/
def zoom_adjust (a : App) : App :=
  match a.image with
  | none => a
  | some img =>
    let z := min (min 1 ((a.outSize.1 : ℚ) / (img.width : ℚ)))
                 ((a.outSize.2 : ℚ) / (img.height : ℚ))
    let a' := clamp_pos { a with zoom := z }
    { a' with dirty := true }

/-- The pan update of `App::set_zoom` (app.rs 310-315): with `k = z1 / z0`,
the new pan is `C + (P - C) / k`. -/
def zoom_shift (z0 z1 : ℚ) (P C : ℚ × ℚ) : ℚ × ℚ :=
  let k := z1 / z0
  (C.1 + (P.1 - C.1) / k, C.2 + (P.2 - C.2) / k)

/-- `App::set_zoom` (app.rs 297-320). -/
def set_zoom (a : App) (zoom : ℚ) (center : Option (ℚ × ℚ)) : App :=
  match a.image with
  | none => a
  | some img =>
    let zoomc := clamp zoom (1 / 1000) 1000
    let img' :=
      match center with
      | some c => { img with pos := zoom_shift a.zoom zoomc img.pos c }
      | none => img
    let a' := clamp_pos { a with image := some img', zoom := zoomc }
    { a' with dirty := true }

/-- `App::zoom_in` (app.rs 283-287): first tabulated step above the current
zoom. -/
def zoom_in (a : App) (center : Option (ℚ × ℚ)) : App :=
  match ZOOM_STEPS.find? (fun z => decide (a.zoom < z)) with
  | some z => set_zoom a z center
  | none => a

/-- `App::zoom_out` (app.rs 290-294): last tabulated step below the current
zoom. -/
def zoom_out (a : App) (center : Option (ℚ × ℚ)) : App :=
  match ZOOM_STEPS.reverse.find? (fun z => decide (z < a.zoom)) with
  | some z => set_zoom a z center
  | none => a

/-- `App::is_adjusted` (app.rs 323-331): true when no image is loaded, else
whether the whole scaled image fits the display. -/
def is_adjusted (a : App) : Bool :=
  match a.image with
  | none => true
  | some img =>
    decide ((a.outSize.1 : ℚ) ≥ (f32round ((img.width : ℚ) * a.zoom) : ℚ)
      ∧ (a.outSize.2 : ℚ) ≥ (f32round ((img.height : ℚ) * a.zoom) : ℚ))

/-- `App::rotate_to` (app.rs 334-338): Rust `%` on `i32` is the truncated
remainder `Int.tmod`. -/
def rotate_to (a : App) (angle : ℤ) : App :=
  match a.image with
  | none => a
  | some img =>
    { a with image := some { img with angle := Int.tmod angle 360 }, dirty := true }

/-- `App::rotate_rel` (app.rs 341-345). -/
def rotate_rel (a : App) (angle : ℤ) : App :=
  match a.image with
  | none => a
  | some img =>
    { a with image := some { img with angle := Int.tmod (img.angle + angle) 360 },
             dirty := true }

/-- `App::screen_to_image_pos` (app.rs 574-585). -/
def screen_to_image_pos (a : App) (pos : ℚ × ℚ) : Option (ℚ × ℚ) :=
  match a.image with
  | none => none
  | some img =>
    let cx := img.pos.1 + (pos.1 - (a.outSize.1 : ℚ) / 2) / a.zoom
    let cy := img.pos.2 + (pos.2 - (a.outSize.2 : ℚ) / 2) / a.zoom
    if cx < 0 ∨ cx > (img.width : ℚ) ∨ cy < 0 ∨ cy > (img.height : ℚ) then none
    else some (cx, cy)

/-- ASCII lowercasing of one character (`char::to_lowercase` restricted to
ASCII, which is all the extension allow-list needs). -/
def lower_char (c : Char) : Char :=
  if 65 ≤ c.toNat ∧ c.toNat ≤ 90 then Char.ofNat (c.toNat + 32) else c

/-- `str::to_lowercase` on ASCII strings. -/
def lower_string (s : String) : String := String.mk (s.data.map lower_char)

/-- Split a character list on `'.'` separators (used to model
`Path::extension`). -/
def split_dots : List Char → List (List Char)
  | [] => [[]]
  | c :: cs =>
    if c = '.' then [] :: split_dots cs
    else
      match split_dots cs with
      | [] => [[c]]
      | h :: t => (c :: h) :: t

/-- `Path::extension` for a single-component relative path: the part after
the final dot, `none` when there is no dot or the only dot is a leading one
(hidden file). -/
def path_ext (path : String) : Option String :=
  match split_dots path.data with
  | [] => none
  | [_] => none
  | first :: rest =>
    if first = [] ∧ rest.length = 1 then none
    else (rest.getLast?).map String.mk

/-- The extension allow-list of `is_image_path` (app.rs 591-593). -/
def EXTENSIONS : List String :=
  ["tga", "bmp", "pnm", "gif", "jpg", "jpeg", "tif", "tiff", "png", "webp"]

/-- `is_image_path` (app.rs 590-601). -/
def is_image_path (path : String) : Bool :=
  match path_ext path with
  | some e => EXTENSIONS.contains (lower_string e)
  | none => false

/-- Byte-wise lexicographic order on character lists, the order `PathBuf`'s
`Ord` induces on the simple ASCII names used here. -/
def chars_lt : List Char → List Char → Bool
  | [], [] => false
  | [], _ :: _ => true
  | _ :: _, [] => false
  | a :: as, b :: bs =>
    if a.toNat < b.toNat then true
    else if b.toNat < a.toNat then false
    else chars_lt as bs

/-- `path_lt x y` : `x < y` in `PathBuf` order. -/
def path_lt (x y : String) : Bool := chars_lt x.data y.data

/-- Insert into an ascending list (building block of `sort_unstable`). -/
def insert_sorted (x : String) : List String → List String
  | [] => [x]
  | y :: ys => if path_lt y x then y :: insert_sorted x ys else x :: y :: ys

/-- `Vec::sort_unstable`: ascending sort (insertion sort; any correct sort
produces the same list). -/
def sort_paths (l : List String) : List String := l.foldr insert_sorted []

/-- `Vec::dedup`: remove consecutive repeated elements. -/
def dedup_adjacent : List String → List String
  | [] => []
  | [x] => [x]
  | x :: y :: rest =>
    if x = y then dedup_adjacent (y :: rest) else x :: dedup_adjacent (y :: rest)

/-- One root path given to `set_filelist` (app.rs 126-143): a directory with
its immediate children, or a single existing file.  Directory enumeration
itself is the external file-enumeration backend; its result is the `children`
list. -/
inductive RootPath where
  | dir (children : List String)
  | file (path : String)

/-- The files one root contributes (the loop body of `set_filelist`). -/
def root_files : RootPath → List String
  | .dir children => children.filter is_image_path
  | .file p => if is_image_path p then [p] else []

/-- The file-list computation of `App::set_filelist` (app.rs 126-148):
concatenate, sort, dedup. -/
def build_filelist (roots : List RootPath) : List String :=
  dedup_adjacent (sort_paths ((roots.map root_files).flatten))

/-- `App::set_filelist` (app.rs 126-155): rebuild the list, then
`change_file(Some(0))` and `zoom_adjust()`. -/
def set_filelist (load : String → Option (ℕ × ℕ)) (a : App) (roots : List RootPath) : App :=
  zoom_adjust (change_file load { a with files := build_filelist roots } (some 0))

/-- The `Keycode::Right` branch of `App::handle_keypress` (app.rs 456-461):
`fstep` is `filelist_step_from_mod keymod`, `mstep` is
`move_step_from_mod keymod`. -/
def handle_right (load : String → Option (ℕ × ℕ)) (a : App) (fstep : ℤ) (mstep : ℚ) : App :=
  if is_adjusted a then zoom_adjust (change_file_rel load a fstep)
  else move_rel a (mstep, 0)

/-- The `Keycode::Left` branch of `App::handle_keypress` (app.rs 462-467). -/
def handle_left (load : String → Option (ℕ × ℕ)) (a : App) (fstep : ℤ) (mstep : ℚ) : App :=
  if is_adjusted a then zoom_adjust (change_file_rel load a (-fstep))
  else move_rel a (-mstep, 0)

/-- One axis of the position invariant: the position is centered when the
image fits the visible extent, otherwise within
`[visible/2, image_size - visible/2]`. -/
def axis_ok (p img dst : ℚ) : Prop :=
  if img ≤ dst then p = img / 2 else dst / 2 ≤ p ∧ p ≤ img - dst / 2

/-- The position invariant `clamp_pos` establishes, per axis with
`visible = output_size / zoom`. -/
def pan_ok (a : App) : Prop :=
  match a.image with
  | none => True
  | some img =>
    axis_ok img.pos.1 (img.width : ℚ) ((a.outSize.1 : ℚ) / a.zoom) ∧
    axis_ok img.pos.2 (img.height : ℚ) ((a.outSize.2 : ℚ) / a.zoom)

/-- The navigation-state invariant: the index is `none` exactly on an empty
file list and otherwise in range. -/
def index_ok (files : List String) : Option ℕ → Prop
  | none => files = []
  | some i => i < files.length

/-- A decode backend that always fails, for concrete navigation tests. -/
def no_load : String → Option (ℕ × ℕ) := fun _ => none

/-- A concrete three-file state at index 0, with a failing decode backend. -/
def app3 : App :=
  { outSize := (800, 500), files := ["a.png", "b.png", "c.png"],
    file_index := some 0, image := none, zoom := 1, dirty := false }

/-- A concrete one-file state holding index 0, with a failing decode
backend. -/
def app8 : App :=
  { outSize := (800, 500), files := ["a.png"],
    file_index := some 0, image := none, zoom := 1, dirty := false }

/-- The zoom-step sequence exactly as claimed, percent values over 100. -/
def ZOOM_STEPS_asSpecified : List ℚ :=
  [15/100, 22/100, 29/100, 36/100, 43/100, 50/100, 60/100, 70/100, 80/100, 90/100,
   100/100, 125/100, 150/100, 175/100, 200/100, 300/100, 400/100, 500/100, 700/100,
   800/100, 900/100, 1000/100, 1500/100, 2000/100, 2500/100, 3000/100, 3500/100,
   4000/100]

/-- A concrete state showing an unrotated 100 by 100 image. -/
def img6 : CurrentImage :=
  { width := 100, height := 100, pos := (50, 50), angle := 0,
    drag := none, pixel_info := none }

/-- The `App` around `img6`. -/
def app6 : App :=
  { outSize := (800, 500), files := ["a.png"], file_index := some 0,
    image := some img6, zoom := 1, dirty := false }

/-- The directory of C9: image-like children `b.png`, `a.PNG`, `a.png` and
a non-image `a.txt`. -/
def roots9 : List RootPath := [RootPath.dir ["b.png", "a.PNG", "a.txt", "a.png"]]

/-- A 100 by 100 image panned to its center. -/
def img7 : CurrentImage :=
  { width := 100, height := 100, pos := (50, 50), angle := 0,
    drag := none, pixel_info := none }

/-- The `App` around `img7`, with a 100 by 100 output at zoom 1. -/
def app7 : App :=
  { outSize := (100, 100), files := ["a.png"], file_index := some 0,
    image := some img7, zoom := 1, dirty := false }

/-- A state with no loaded image but a non-empty file list. -/
def app10 : App :=
  { outSize := (800, 500), files := ["a.png", "b.png"], file_index := some 0,
    image := none, zoom := 1, dirty := false }

/-- A 4000 by 3000 image panned near its bottom edge. -/
def img4 : CurrentImage :=
  { width := 4000, height := 3000, pos := (2000, 2900), angle := 0,
    drag := none, pixel_info := none }

/-- The `App` around `img4`, two files, 800 by 500 output at zoom 1. -/
def app4 : App :=
  { outSize := (800, 500), files := ["a.png", "b.png"], file_index := some 0,
    image := some img4, zoom := 1, dirty := false }

/-- A 4000 by 3000 image panned to its center. -/
def img1 : CurrentImage :=
  { width := 4000, height := 3000, pos := (2000, 1500), angle := 0,
    drag := none, pixel_info := none }

/-- The `App` around `img1`, 800 by 500 output at zoom 1. -/
def app1 : App :=
  { outSize := (800, 500), files := ["a.png"], file_index := some 0,
    image := some img1, zoom := 1, dirty := false }


lemma clamp_mem {lo hi : ℚ} (v : ℚ) (h : lo ≤ hi) :
    lo ≤ clamp v lo hi ∧ clamp v lo hi ≤ hi := by
  unfold clamp
  split_ifs with h1 h2 <;> constructor <;> linarith

lemma axis_ok_axis_val (p img dst : ℚ) : axis_ok (axis_val p img dst) img dst := by
  unfold axis_ok axis_val
  split_ifs with h
  · rfl
  · exact clamp_mem p (by linarith)

lemma pan_ok_dirty (b : App) : pan_ok { b with dirty := true } ↔ pan_ok b := Iff.rfl

lemma pan_ok_clamp_pos (a : App) : pan_ok (clamp_pos a) := by
  rcases h : a.image with _ | img
  · simp only [clamp_pos, pan_ok, h]
  · simp only [clamp_pos, pan_ok, h]
    exact ⟨axis_ok_axis_val _ _ _, axis_ok_axis_val _ _ _⟩

lemma pan_ok_move_to (a : App) (p : ℚ × ℚ) : pan_ok (move_to a p) := by
  rcases h : a.image with _ | img
  · simp only [move_to, pan_ok, h]
  · simp only [move_to, h]
    exact (pan_ok_dirty _).mpr (pan_ok_clamp_pos _)

/-- C2: after `clamp_pos` — and hence after `move_to`, `move_rel`,
`set_zoom`, or `zoom_adjust`, each of which ends in `clamp_pos` — each pan
axis is centered when the image fits the visible extent
`output_size / zoom`, and otherwise lies within
`[visible/2, image_size - visible/2]`. -/
theorem clamp_invariant :
    ∀ (a : App) (p d : ℚ × ℚ) (z : ℚ) (c : Option (ℚ × ℚ)),
    pan_ok (clamp_pos a) ∧ pan_ok (move_to a p) ∧ pan_ok (move_rel a d) ∧
    pan_ok (set_zoom a z c) ∧ pan_ok (zoom_adjust a) := by
  intro a p d z c
  refine ⟨pan_ok_clamp_pos a, pan_ok_move_to a p, ?_, ?_, ?_⟩
  · rcases h : a.image with _ | img
    · simp only [move_rel, pan_ok, h]
    · simp only [move_rel, h]
      exact pan_ok_move_to _ _
  · rcases h : a.image with _ | img
    · simp only [set_zoom, pan_ok, h]
    · simp only [set_zoom, h]
      exact (pan_ok_dirty _).mpr (pan_ok_clamp_pos _)
  · rcases h : a.image with _ | img
    · simp only [zoom_adjust, pan_ok, h]
    · simp only [zoom_adjust, h]
      exact (pan_ok_dirty _).mpr (pan_ok_clamp_pos _)

lemma change_file_files (load : String → Option (ℕ × ℕ)) (a : App) (idx : Option ℕ) :
    (change_file load a idx).files = a.files := by
  simp only [change_file]
  repeat' split
  all_goals rfl

lemma change_file_empty_index (load : String → Option (ℕ × ℕ)) (a : App) (idx : Option ℕ)
    (h : a.files.length = 0) :
    (change_file load a idx).file_index = none := by
  simp only [change_file, if_pos h]
  split
  · next heq => exact heq.symm
  · rfl

lemma change_file_some_index (load : String → Option (ℕ × ℕ)) (a : App) (i : ℕ)
    (h : a.files.length ≠ 0) :
    (change_file load a (some i)).file_index = some (i % a.files.length) := by
  simp only [change_file, if_neg h, Option.map_some']
  by_cases heq : (some (i % a.files.length) : Option ℕ) = a.file_index
  · rw [if_pos heq]
    exact heq.symm
  · rw [if_neg heq]
    rcases hld : load (a.files.getD (i % a.files.length) "") with _ | ⟨sx, sy⟩ <;>
      simp [hld]

lemma index_ok_change_file_some (load : String → Option (ℕ × ℕ)) (a : App) (i : ℕ) :
    index_ok a.files (change_file load a (some i)).file_index := by
  by_cases h : a.files.length = 0
  · rw [change_file_empty_index load a _ h]
    exact List.length_eq_zero.mp h
  · rw [change_file_some_index load a i h]
    exact Nat.mod_lt i (Nat.pos_of_ne_zero h)

lemma index_ok_change_file_rel (load : String → Option (ℕ × ℕ)) (a : App) (off : ℤ) :
    index_ok a.files (change_file_rel load a off).file_index := by
  simp only [change_file_rel]
  by_cases h : (a.files.length : ℤ) = 0
  · rw [if_pos h]
    have hlen : a.files.length = 0 := by exact_mod_cast h
    rw [change_file_empty_index load a none hlen]
    exact List.length_eq_zero.mp hlen
  · rw [if_neg h]
    exact index_ok_change_file_some load a _

/-- C3: relative file selection always yields an index in `[0, length)` when
the list is non-empty and `none` when it is empty (`index_ok`); in
particular an offset of `-1` from index 0 in a three-file list wraps to
index 2. -/
theorem change_file_rel_range :
    (∀ (load : String → Option (ℕ × ℕ)) (a : App) (off : ℤ),
      index_ok a.files (change_file_rel load a off).file_index)
    ∧ (change_file_rel no_load app3 (-1)).file_index = some 2 :=
  ⟨index_ok_change_file_rel, by decide⟩

lemma clamp_pos_files_index (a : App) :
    (clamp_pos a).files = a.files ∧ (clamp_pos a).file_index = a.file_index := by
  rcases h : a.image with _ | img <;> simp [clamp_pos, h]

lemma zoom_adjust_files_index (a : App) :
    (zoom_adjust a).files = a.files ∧ (zoom_adjust a).file_index = a.file_index := by
  rcases h : a.image with _ | img
  · simp [zoom_adjust, h]
  · simp only [zoom_adjust, h]
    exact ⟨(clamp_pos_files_index _).1, (clamp_pos_files_index _).2⟩

/-- C8 counterexample: `change_file(None)` on a non-empty file list sets the
index to `None`, so the invariant "current_index is `None` iff the file list
is empty" does not survive `change_file` with an arbitrary `Option` argument. -/
theorem change_file_none_counterexample :
    (change_file no_load app8 none).file_index = none
    ∧ (change_file no_load app8 none).files ≠ [] := by
  constructor <;> decide

/-- C8 amended: the navigation-state invariant (`index_ok`: index `none` iff
the list is empty, otherwise in range) holds after `change_file` with any
`Some` argument, after `change_file_rel` with any offset, and after
`set_filelist`; moreover with a non-empty list `change_file(Some i)` always
retains the resolved in-range index `i % len`, whether or not decoding
succeeds. -/
theorem nav_state_invariant :
    (∀ (load : String → Option (ℕ × ℕ)) (a : App) (i : ℕ),
      index_ok a.files (change_file load a (some i)).file_index)
    ∧ (∀ (load : String → Option (ℕ × ℕ)) (a : App) (off : ℤ),
      index_ok a.files (change_file_rel load a off).file_index)
    ∧ (∀ (load : String → Option (ℕ × ℕ)) (a : App) (roots : List RootPath),
      index_ok (set_filelist load a roots).files (set_filelist load a roots).file_index)
    ∧ (∀ (load : String → Option (ℕ × ℕ)) (a : App) (i : ℕ), a.files.length ≠ 0 →
      (change_file load a (some i)).file_index = some (i % a.files.length)) := by
  refine ⟨index_ok_change_file_some, index_ok_change_file_rel, ?_, change_file_some_index⟩
  intro load a roots
  simp only [set_filelist]
  rw [(zoom_adjust_files_index _).1, (zoom_adjust_files_index _).2, change_file_files]
  exact index_ok_change_file_some load _ 0

/-- C8 witness: with a non-empty three-file list, `change_file(Some 5)`
resolves and keeps the in-range index `5 % 3 = 2` although decoding fails. -/
theorem nav_state_invariant_witness :
    (change_file no_load app3 (some 5)).file_index = some 2 :=
  nav_state_invariant.2.2.2 no_load app3 5 (by decide)

section

attribute [local semireducible] Rat.mul Rat.inv Rat.add Rat.sub

/-- C5 counterexample: the constructed step table is not the claimed
sequence — `(600..1000).step_by(200)` contributes 600 and 800 percent (not
700, 800, 900), `(1000..2000).step_by(500)` contributes 1000 and 1500, and
`(2000..5000).step_by(1000)` contributes 2000, 3000, 4000 (not 2500 or
3500). -/
theorem zoom_steps_counterexample : ZOOM_STEPS ≠ ZOOM_STEPS_asSpecified := by
  decide

/-- C5 amended: the step table is exactly 15, 22, 29, 36, 43, 50, 60, 70,
80, 90, 100, 125, 150, 175, 200, 300, 400, 500, 600, 800, 1000, 1500, 2000,
3000, 4000 percent, and it is strictly increasing. -/
theorem zoom_steps_values :
    ZOOM_STEPS =
      [15/100, 22/100, 29/100, 36/100, 43/100, 50/100, 60/100, 70/100, 80/100,
       90/100, 100/100, 125/100, 150/100, 175/100, 200/100, 300/100, 400/100,
       500/100, 600/100, 800/100, 1000/100, 1500/100, 2000/100, 3000/100,
       4000/100]
    ∧ List.Chain' (· < ·) ZOOM_STEPS := by
  have h : ZOOM_STEPS =
      [15/100, 22/100, 29/100, 36/100, 43/100, 50/100, 60/100, 70/100, 80/100,
       90/100, 100/100, 125/100, 150/100, 175/100, 200/100, 300/100, 400/100,
       500/100, 600/100, 800/100, 1000/100, 1500/100, 2000/100, 3000/100,
       4000/100] := by decide
  refine ⟨h, ?_⟩
  rw [h]
  norm_num

end

/-- C6 counterexample: `rotate_rel (-90)` from rotation 0 stores `-90`
(Rust's truncated `%`), not 270. -/
theorem rotate_counterexample :
    (rotate_rel app6 (-90)).image.map CurrentImage.angle = some (-90)
    ∧ (rotate_rel app6 (-90)).image.map CurrentImage.angle ≠ some 270 := by
  constructor <;> decide

/-- C6 amended: `rotate_to` and `rotate_rel` store the angle reduced by
Rust's truncated modulo 360, whose result lies in `(-360, 360)` and keeps
the sign of the dividend; `rotate_rel (-90)` from 0 therefore yields `-90`,
not 270. -/
theorem rotate_tmod :
    (∀ (a : App) (d : ℤ), (rotate_rel a d).image.map CurrentImage.angle
      = a.image.map (fun img => Int.tmod (img.angle + d) 360))
    ∧ (∀ (a : App) (ang : ℤ), (rotate_to a ang).image.map CurrentImage.angle
      = a.image.map (fun _ => Int.tmod ang 360))
    ∧ (∀ z : ℤ, (Int.tmod z 360).natAbs < 360)
    ∧ (rotate_rel app6 (-90)).image.map CurrentImage.angle = some (-90) := by
  refine ⟨?_, ?_, ?_, by decide⟩
  · intro a d
    rcases h : a.image with _ | img <;> simp [rotate_rel, h]
  · intro a ang
    rcases h : a.image with _ | img <;> simp [rotate_to, h]
  · intro z
    cases z with
    | ofNat m => simpa [Int.tmod] using Nat.mod_lt m (by norm_num)
    | negSucc m => simpa [Int.tmod] using Nat.mod_lt (m + 1) (by norm_num)

/-- C9 counterexample: the built list is not a two-element list —
`Vec::dedup` compares full paths and `"a.PNG" ≠ "a.png"`, so both survive. -/
theorem filelist_counterexample :
    build_filelist roots9 ≠ ["a.PNG", "b.png"]
    ∧ build_filelist roots9 ≠ ["a.png", "b.png"]
    ∧ (build_filelist roots9).length = 3 := by
  refine ⟨by decide, by decide, by decide⟩

/-- C9 amended: building the list from that directory yields exactly
`[a.PNG, a.png, b.png]` sorted: `a.txt` is excluded by the case-insensitive
extension allow-list, and both `a.PNG` and `a.png` are kept because
deduplication compares full paths, which differ. -/
theorem filelist_example :
    build_filelist roots9 = ["a.PNG", "a.png", "b.png"] := by decide

/-- C7: with an image loaded, `screen_to_image_pos` returns `some c` exactly
when the affinely mapped point `c = pan + (screen - output/2) / zoom` lies in
`[0, width] × [0, height]`, and returns `none` whenever no image is
loaded. -/
theorem screen_to_image_iff (a : App) (img : CurrentImage) (himg : a.image = some img) :
    (∀ s c : ℚ × ℚ,
      screen_to_image_pos a s = some c ↔
        (c = (img.pos.1 + (s.1 - (a.outSize.1 : ℚ) / 2) / a.zoom,
              img.pos.2 + (s.2 - (a.outSize.2 : ℚ) / 2) / a.zoom)
         ∧ 0 ≤ c.1 ∧ c.1 ≤ (img.width : ℚ) ∧ 0 ≤ c.2 ∧ c.2 ≤ (img.height : ℚ)))
    ∧ ∀ (b : App) (s : ℚ × ℚ), b.image = none → screen_to_image_pos b s = none := by
  constructor
  · intro s c
    simp only [screen_to_image_pos, himg]
    split_ifs with h
    · constructor
      · intro he
        cases he
      · rintro ⟨rfl, h1, h2, h3, h4⟩
        dsimp only at h1 h2 h3 h4
        rcases h with h | h | h | h <;> linarith
    · push_neg at h
      obtain ⟨hx0, hx1, hy0, hy1⟩ := h
      constructor
      · intro he
        obtain rfl := (Option.some.inj he).symm
        exact ⟨rfl, hx0, hx1, hy0, hy1⟩
      · rintro ⟨rfl, -, -, -, -⟩
        rfl
  · intro b s hb
    simp [screen_to_image_pos, hb]

section

attribute [local semireducible] Rat.mul Rat.inv Rat.add Rat.sub

/-- C7 witness: the screen center of `app7` maps to the image point
`(50, 50)`. -/
theorem screen_to_image_iff_witness :
    screen_to_image_pos app7 (50, 50) = some (50, 50) :=
  ((screen_to_image_iff app7 img7 rfl).1 (50, 50) (50, 50)).mpr (by decide)

end

/-- C10: with no image loaded (empty list or failed decode), `is_adjusted`
returns true, so the horizontal arrow-key branches always advance to the
adjacent file instead of panning. -/
theorem empty_state_navigation :
    (∀ a : App, a.image = none → is_adjusted a = true)
    ∧ (∀ (load : String → Option (ℕ × ℕ)) (a : App) (fstep : ℤ) (mstep : ℚ),
        a.image = none →
        handle_right load a fstep mstep = zoom_adjust (change_file_rel load a fstep)
        ∧ handle_left load a fstep mstep = zoom_adjust (change_file_rel load a (-fstep))) := by
  have h1 : ∀ a : App, a.image = none → is_adjusted a = true := by
    intro a h
    simp [is_adjusted, h]
  refine ⟨h1, ?_⟩
  intro load a fstep mstep h
  constructor <;> simp [handle_right, handle_left, h1 a h]

/-- C10 witness: in the imageless state `app10`, `is_adjusted` is true and a
right-arrow press advances the file instead of panning. -/
theorem empty_state_navigation_witness :
    is_adjusted app10 = true
    ∧ handle_right no_load app10 1 50 = zoom_adjust (change_file_rel no_load app10 1) :=
  ⟨empty_state_navigation.1 app10 rfl,
   (empty_state_navigation.2 no_load app10 1 50 rfl).1⟩

/-- C4: `scroll(step)` computes `dy = step * output_height / zoom` and, with
margin `3/2`: past the bottom it advances one file and moves to `(0, 0)`;
past the top it goes back one file and moves to the `f32::MAX` sentinel
(clamped to the bottom by `move_to`); otherwise it is `move_rel (0, dy)`. -/
theorem scroll_paging (load : String → Option (ℕ × ℕ)) (a : App) (img : CurrentImage)
    (step : ℚ) (himg : a.image = some img) :
    (step * (a.outSize.2 : ℚ) / a.zoom ≥ 0
      ∧ img.pos.2 + step * (a.outSize.2 : ℚ) / a.zoom / 2 + 3 / 2 > (img.height : ℚ) →
      scroll load a step = move_to (change_file_rel load a 1) (0, 0))
    ∧ (step * (a.outSize.2 : ℚ) / a.zoom < 0
      ∧ img.pos.2 + step * (a.outSize.2 : ℚ) / a.zoom / 2 - 3 / 2 < 0 →
      scroll load a step = move_to (change_file_rel load a (-1)) (0, f32MAX))
    ∧ (¬(step * (a.outSize.2 : ℚ) / a.zoom ≥ 0
        ∧ img.pos.2 + step * (a.outSize.2 : ℚ) / a.zoom / 2 + 3 / 2 > (img.height : ℚ)) →
      ¬(step * (a.outSize.2 : ℚ) / a.zoom < 0
        ∧ img.pos.2 + step * (a.outSize.2 : ℚ) / a.zoom / 2 - 3 / 2 < 0) →
      scroll load a step = move_rel a (0, step * (a.outSize.2 : ℚ) / a.zoom)) := by
  refine ⟨fun h => ?_, fun h => ?_, fun h1 h2 => ?_⟩
  · simp only [scroll, himg]
    rw [if_pos h]
  · simp only [scroll, himg]
    have hneg : ¬(step * (a.outSize.2 : ℚ) / a.zoom ≥ 0
        ∧ img.pos.2 + step * (a.outSize.2 : ℚ) / a.zoom / 2 + 3 / 2 > (img.height : ℚ)) := by
      rintro ⟨hge, -⟩
      exact absurd h.1 (not_lt.mpr hge)
    rw [if_neg hneg, if_pos h]
  · simp only [scroll, himg]
    rw [if_neg h1, if_neg h2]

section

attribute [local semireducible] Rat.mul Rat.inv Rat.add Rat.sub

/-- C4 witness: one page down from `pos_y = 2900` in a 3000-high image runs
past the bottom, so `scroll` advances a file and moves to `(0, 0)`. -/
theorem scroll_paging_witness :
    scroll no_load app4 1 = move_to (change_file_rel no_load app4 1) (0, 0) :=
  (scroll_paging no_load app4 img4 1 rfl).1 (by decide)

end

lemma zoom_center_axis (z0 z1 p c o s : ℚ) (hz0 : z0 ≠ 0) (hz1 : z1 ≠ 0)
    (hc : c = p + (s - o / 2) / z0) :
    c + (p - c) * (z0 / z1) + (s - o / 2) / z1 = c := by
  subst hc
  field_simp
  ring

lemma set_zoom_shape (a : App) (img : CurrentImage) (zr : ℚ) (C : ℚ × ℚ)
    (himg : a.image = some img) :
    set_zoom a zr (some C) =
      { a with
        image := some { img with pos :=
          (axis_val (zoom_shift a.zoom (clamp zr (1 / 1000) 1000) img.pos C).1
             (img.width : ℚ) ((a.outSize.1 : ℚ) / clamp zr (1 / 1000) 1000),
           axis_val (zoom_shift a.zoom (clamp zr (1 / 1000) 1000) img.pos C).2
             (img.height : ℚ) ((a.outSize.2 : ℚ) / clamp zr (1 / 1000) 1000)) },
        zoom := clamp zr (1 / 1000) 1000, dirty := true } := by
  simp only [set_zoom, clamp_pos, himg]

/-- C1: `set_zoom` with a supplied center `C` first sets the pan to
`P' = C + (P - C) * (z0 / z1)` (with `z1` the clamped target zoom), and
whenever that pan survives the subsequent `clamp_pos` unchanged, the screen
point that mapped to `C` before the zoom change still maps to `C` after
it. -/
theorem set_zoom_center (a : App) (img : CurrentImage) (s C : ℚ × ℚ) (zr : ℚ)
    (himg : a.image = some img) (hz : 0 < a.zoom)
    (hC : screen_to_image_pos a s = some C)
    (hnc : (set_zoom a zr (some C)).image.map CurrentImage.pos
      = some (zoom_shift a.zoom (clamp zr (1 / 1000) 1000) img.pos C)) :
    zoom_shift a.zoom (clamp zr (1 / 1000) 1000) img.pos C
      = (C.1 + (img.pos.1 - C.1) * (a.zoom / clamp zr (1 / 1000) 1000),
         C.2 + (img.pos.2 - C.2) * (a.zoom / clamp zr (1 / 1000) 1000))
    ∧ screen_to_image_pos (set_zoom a zr (some C)) s = some C := by
  have hz1 : 0 < clamp zr (1 / 1000) 1000 :=
    lt_of_lt_of_le (by norm_num) (clamp_mem zr (by norm_num)).1
  have part1 : zoom_shift a.zoom (clamp zr (1 / 1000) 1000) img.pos C
      = (C.1 + (img.pos.1 - C.1) * (a.zoom / clamp zr (1 / 1000) 1000),
         C.2 + (img.pos.2 - C.2) * (a.zoom / clamp zr (1 / 1000) 1000)) := by
    simp only [zoom_shift]
    rw [div_div_eq_mul_div, div_div_eq_mul_div, mul_div_assoc, mul_div_assoc]
  refine ⟨part1, ?_⟩
  have hCeq := hC
  simp only [screen_to_image_pos, himg] at hCeq
  by_cases hcond : (img.pos.1 + (s.1 - (a.outSize.1 : ℚ) / 2) / a.zoom < 0
      ∨ img.pos.1 + (s.1 - (a.outSize.1 : ℚ) / 2) / a.zoom > (img.width : ℚ)
      ∨ img.pos.2 + (s.2 - (a.outSize.2 : ℚ) / 2) / a.zoom < 0
      ∨ img.pos.2 + (s.2 - (a.outSize.2 : ℚ) / 2) / a.zoom > (img.height : ℚ))
  · rw [if_pos hcond] at hCeq
    cases hCeq
  · rw [if_neg hcond] at hCeq
    push_neg at hcond
    obtain ⟨hx0, hx1, hy0, hy1⟩ := hcond
    have hCc := Option.some.inj hCeq
    have hC1 : C.1 = img.pos.1 + (s.1 - (a.outSize.1 : ℚ) / 2) / a.zoom :=
      (congrArg Prod.fst hCc).symm
    have hC2 : C.2 = img.pos.2 + (s.2 - (a.outSize.2 : ℚ) / 2) / a.zoom :=
      (congrArg Prod.snd hCc).symm
    rw [set_zoom_shape a img zr C himg] at hnc ⊢
    rw [part1] at hnc ⊢
    simp only [Option.map_some', Option.some.injEq, Prod.mk.injEq] at hnc
    simp only [screen_to_image_pos]
    rw [hnc.1, hnc.2]
    have key1 := zoom_center_axis a.zoom (clamp zr (1 / 1000) 1000) img.pos.1 C.1
      (a.outSize.1 : ℚ) s.1 hz.ne' hz1.ne' hC1
    have key2 := zoom_center_axis a.zoom (clamp zr (1 / 1000) 1000) img.pos.2 C.2
      (a.outSize.2 : ℚ) s.2 hz.ne' hz1.ne' hC2
    rw [key1, key2]
    have hfalse : ¬(C.1 < 0 ∨ C.1 > (img.width : ℚ) ∨ C.2 < 0 ∨ C.2 > (img.height : ℚ)) := by
      push_neg
      exact ⟨by rw [hC1]; exact hx0, by rw [hC1]; exact hx1,
             by rw [hC2]; exact hy0, by rw [hC2]; exact hy1⟩
    rw [if_neg hfalse]

section

attribute [local semireducible] Rat.mul Rat.inv Rat.add Rat.sub

/-- C1 witness: zooming `app1` from 1 to 2 centered on the image point under
the screen center `(400, 250)` keeps that image point, `(2000, 1500)`, under
the cursor; the clamp leaves the recomputed pan untouched. -/
theorem set_zoom_center_witness :
    zoom_shift app1.zoom (clamp 2 (1 / 1000) 1000) img1.pos (2000, 1500)
      = ((2000 : ℚ) + (img1.pos.1 - 2000) * (app1.zoom / clamp 2 (1 / 1000) 1000),
         (1500 : ℚ) + (img1.pos.2 - 1500) * (app1.zoom / clamp 2 (1 / 1000) 1000))
    ∧ screen_to_image_pos (set_zoom app1 2 (some (2000, 1500))) (400, 250)
      = some (2000, 1500) :=
  set_zoom_center app1 img1 (400, 250) (2000, 1500) 2 rfl (by norm_num [app1])
    (by decide) (by decide)

end

end Riew
